import Mathlib

/-!
Shallow embedding of `social-listening-reddit-python-nltk.py`, the single
source file of the repository: a batch social-listening script that fetches
Reddit comments, scores their sentiment with VADER, tallies topics, brands
and subreddits, ranks the scored comments, and prints a final summary.

External collaborators are parameters of the embedding:
  * the VADER compound score is a parameter `score : String → ℚ`
    (a pure function of the body, per the source);
  * the NLTK stop-word set is a parameter `stop_words : List String`;
  * the Reddit HTTP API is a parameter
    `fetch : String → Option (List RComment)` (`none` models a non-200
    response for a per-submission comment request).
Python floats are modelled as rationals; the fixed thresholds 0.05 / -0.05
are exact. Python `str.isalpha` / `str.lower` are modelled over the ASCII
range, which covers every concrete input used here.
-/

namespace SocialListening

open scoped List

/-- Split a character list at whitespace (runs of whitespace produce empty
chunks, dropped below, as Python `str.split()` drops them). -/
def splitWsAux : List Char → List Char → List (List Char)
  | [], acc => [acc.reverse]
  | c :: cs, acc =>
    if c.isWhitespace then acc.reverse :: splitWsAux cs []
    else splitWsAux cs (c :: acc)

/-- Python `str.split()`: split on whitespace, dropping empty tokens. -/
def pySplit (s : String) : List String :=
  ((splitWsAux s.data []).map (fun l => String.mk l)).filter (fun w => w ≠ "")

/-- Python `str.isalpha()`: nonempty and every character alphabetic. -/
def pyIsAlpha (s : String) : Bool :=
  !s.data.isEmpty && s.data.all Char.isAlpha

/-- Python `str.lower()`. -/
def pyLower (s : String) : String :=
  String.mk (s.data.map Char.toLower)

/-- The fixed positive sentiment threshold `0.05` of the source
(`mkRat 5 100 = 0.05`, proved in `SENTIMENT_POS_eq` below). -/
def SENTIMENT_POS : ℚ := mkRat 5 100

/-- The fixed negative sentiment threshold `-0.05` of the source. -/
def SENTIMENT_NEG : ℚ := mkRat (-5) 100

/-- Does the character list start with the given needle? -/
def startsWithL : List Char → List Char → Bool
  | [], _ => true
  | _ :: _, [] => false
  | a :: as, b :: bs => a == b && startsWithL as bs

/-- Does some suffix of `hay` start with `needle`? -/
def containsAux (needle : List Char) : List Char → Bool
  | [] => startsWithL needle []
  | c :: cs => startsWithL needle (c :: cs) || containsAux needle cs

/-- Python substring containment `needle in hay` over strings. -/
def strContainsSub (hay needle : String) : Bool :=
  containsAux needle.data hay.data

/-- One Reddit comment record: the fields of `comment["data"]` used by the
script (`author`, `body`, `permalink`), plus the top-level `subreddit` tag
that `fetch_ceiling_fan_comments` attaches. Optional fields model absent
dictionary keys. -/
structure RComment where
  author : Option String
  body : Option String
  permalink : String
  subreddit : Option String
deriving DecidableEq

/-- The fixed topic keyword list of `analyze_comments`. -/
def topics : List String :=
  ["price", "installation", "wiring", "brands", "likes", "dislikes",
   "quality", "design", "noise", "blades", "remote", "cost", "light",
   "cheap", "expensive", "efficiency", "maintenance", "airflow"]

/-- The configured brand list (global `BRANDS`). -/
def BRANDS : List String :=
  ["hunter", "hampton bay", "westinghouse", "bunnings", "big ass fans", "minka"]

/-- The three sentiment counters of `sentiment_data`. -/
structure SentimentData where
  positive : Nat
  neutral : Nat
  negative : Nat
deriving DecidableEq

/-- A scored comment tuple `(sentiment, body, permalink)`. -/
abbrev Scored := ℚ × String × String

/-- Point increment of a `Counter` (missing keys default to 0). -/
def countIncr (f : String → Nat) (k : String) : String → Nat :=
  fun t => if t = k then f t + 1 else f t

/-- Append to one key of a `defaultdict(list)`. -/
def groupAppend (f : String → List String) (k : String) (b : String) :
    String → List String :=
  fun t => if t = k then f t ++ [b] else f t

/-- The mutable accumulators of `analyze_comments` before ranking. -/
structure AnalysisState where
  sentiment_data : SentimentData
  topic_counts : String → Nat
  brand_counts : String → Nat
  topic_comments : String → List String
  all_words : List String
  positive_words : List String
  negative_words : List String
  scored_comments : List Scored

/-- The empty accumulators at the top of `analyze_comments`. -/
def initState : AnalysisState :=
  { sentiment_data := ⟨0, 0, 0⟩
    topic_counts := fun _ => 0
    brand_counts := fun _ => 0
    topic_comments := fun _ => []
    all_words := []
    positive_words := []
    negative_words := []
    scored_comments := [] }

/-- The list comprehension feeding `all_words`: whitespace-split tokens,
kept only when fully alphabetic and (lower-cased) not a stop word, then
lower-cased. -/
def normTokens (stop_words : List String) (body : String) : List String :=
  ((pySplit body).filter
    (fun w => pyIsAlpha w && !(stop_words.contains (pyLower w)))).map pyLower

/-- How many keywords of `L` equal `t` and occur (as substrings of the
lower-cased body) in `body`. -/
def countMatches (body t : String) (L : List String) : Nat :=
  (L.filter (fun x => x == t && strContainsSub (pyLower body) x)).length

/-- The body of the `for topic in topics` loop: on a substring match over
the lower-cased body, bump the topic counter and group the body. -/
def topicStep (body : String) (s : AnalysisState) (t : String) : AnalysisState :=
  if strContainsSub (pyLower body) t then
    { s with
      topic_counts := countIncr s.topic_counts t
      topic_comments := groupAppend s.topic_comments t body }
  else s

/-- The body of the `for brand in BRANDS` loop. -/
def brandStep (body : String) (s : AnalysisState) (br : String) : AnalysisState :=
  if strContainsSub (pyLower body) br then
    { s with brand_counts := countIncr s.brand_counts br }
  else s

/-- The body of the `for comment in comments` loop of `analyze_comments`:
a record lacking `body` is skipped entirely; otherwise the comment is
scored, bucketed by the fixed thresholds, tokenized, and matched against
the topic and brand keyword lists by substring containment over the
lower-cased body. -/
def processComment (score : String → ℚ) (stop_words : List String)
    (st : AnalysisState) (c : RComment) : AnalysisState :=
  match c.body with
  | none => st
  | some body =>
    let permalink := "https://reddit.com" ++ c.permalink
    let sentiment := score body
    let st1 := { st with
      scored_comments := st.scored_comments ++ [(sentiment, body, permalink)] }
    let st2 :=
      if sentiment > SENTIMENT_POS then
        { st1 with
          sentiment_data := { st1.sentiment_data with
            positive := st1.sentiment_data.positive + 1 }
          positive_words := st1.positive_words ++ pySplit body }
      else if sentiment < SENTIMENT_NEG then
        { st1 with
          sentiment_data := { st1.sentiment_data with
            negative := st1.sentiment_data.negative + 1 }
          negative_words := st1.negative_words ++ pySplit body }
      else
        { st1 with
          sentiment_data := { st1.sentiment_data with
            neutral := st1.sentiment_data.neutral + 1 } }
    let st3 := { st2 with all_words := st2.all_words ++ normTokens stop_words body }
    let st4 := topics.foldl (topicStep body) st3
    BRANDS.foldl (brandStep body) st4

/-- The accumulators after the full pass of `analyze_comments`. -/
def analysisState (score : String → ℚ) (stop_words : List String)
    (comments : List RComment) : AnalysisState :=
  comments.foldl (processComment score stop_words) initState

/-- The descending comparison on scored comments: `a` may precede `b` when
`b`'s score is at most `a`'s. -/
def scoredLE (a b : Scored) : Bool :=
  decide (b.1 ≤ a.1)

/-- Embeds `scored_comments.sort(key=lambda x: x[0], reverse=True)`: a stable
descending sort by the sentiment score (Python `list.sort` is stable; ties
keep their input order, as does `mergeSort`). -/
def sortScored (l : List Scored) : List Scored :=
  l.mergeSort scoredLE

/-- The return value of `analyze_comments`. -/
structure AnalysisResult where
  sentiment_data : SentimentData
  topic_counts : String → Nat
  brand_counts : String → Nat
  topic_comments : String → List String
  all_words : List String
  positive_words : List String
  negative_words : List String
  most_positive : List Scored
  most_negative : List Scored

/-- Embeds `analyze_comments`: run the aggregation pass, then sort the scored
comments descending and slice `[:10]` and `[-10:]`. -/
def analyze_comments (score : String → ℚ) (stop_words : List String)
    (comments : List RComment) : AnalysisResult :=
  let st := analysisState score stop_words comments
  let sorted := sortScored st.scored_comments
  { sentiment_data := st.sentiment_data
    topic_counts := st.topic_counts
    brand_counts := st.brand_counts
    topic_comments := st.topic_comments
    all_words := st.all_words
    positive_words := st.positive_words
    negative_words := st.negative_words
    most_positive := sorted.take 10
    most_negative := sorted.drop (sorted.length - 10) }

/-- Embeds `save_comments_to_csv`: the rows written after the header, one per
record whose data has a `body` key, in input order. -/
def save_comments_to_csv (comments : List RComment) : List (List String) :=
  comments.filterMap (fun c =>
    c.body.map (fun b =>
      [c.author.getD "N/A", b, c.subreddit.getD "N/A",
       "https://reddit.com" ++ c.permalink]))

/-- One submission returned by the search request. -/
structure Submission where
  subreddit : String
  id : String
deriving DecidableEq

/-- The first loop of `fetch_ceiling_fan_comments`: for each submission,
increment its subreddit count, then fetch its comments; on a non-200
response (`none`) the comments are skipped, otherwise they are tagged with
the submission's subreddit and appended. -/
def fetch_phase1 (fetch : String → Option (List RComment)) :
    List Submission → List RComment × (String → Nat) →
    List RComment × (String → Nat)
  | [], acc => acc
  | s :: rest, (all, counts) =>
    let counts1 := countIncr counts s.subreddit
    let all1 := match fetch s.id with
      | some cs => all ++ cs.map (fun c => { c with subreddit := some s.subreddit })
      | none => all
    fetch_phase1 fetch rest (all1, counts1)

/-- The second loop of `fetch_ceiling_fan_comments`: recount every comment
carrying a `subreddit` tag into the same counter. -/
def fetch_phase2 (all : List RComment) (counts : String → Nat) : String → Nat :=
  all.foldl (fun f c =>
    match c.subreddit with
    | some r => countIncr f r
    | none => f) counts

/-- Embeds `fetch_ceiling_fan_comments` after a successful submission search:
returns the tagged comment list and the dual-counted subreddit counter. -/
def fetch_ceiling_fan_comments (subs : List Submission)
    (fetch : String → Option (List RComment)) :
    List RComment × (String → Nat) :=
  let p := fetch_phase1 fetch subs ([], fun _ => 0)
  (p.1, fetch_phase2 p.1 p.2)

/-- The comments accumulated by the first loop of
`fetch_ceiling_fan_comments`: per submission, the fetched comments tagged
with its subreddit, or nothing on a failed fetch. -/
def taggedOf (fetch : String → Option (List RComment)) :
    List Submission → List RComment
  | [] => []
  | s :: rest =>
    (match fetch s.id with
     | some cs => cs.map (fun c => { c with subreddit := some s.subreddit })
     | none => []) ++ taggedOf fetch rest

/-- Embeds `user_activity` of `generate_final_summary`: counts every comment whose
data has an `author` key, body or not. -/
def user_activity (comments : List RComment) : String → Nat :=
  comments.foldl (fun f c =>
    match c.author with
    | some a => countIncr f a
    | none => f) (fun _ => 0)

/-- The data `generate_final_summary` prints. -/
structure FinalSummary where
  totalComments : Nat
  userActivity : String → Nat
  topPositive : Scored
  topNegative : Scored

/-- Embeds `generate_final_summary`: reads `most_positive[0]` and
`most_negative[0]`; an empty list there raises an unhandled `IndexError`,
modelled as `none`. -/
def generate_final_summary (comments : List RComment)
    (most_positive most_negative : List Scored) : Option FinalSummary :=
  match most_positive, most_negative with
  | p :: _, n :: _ =>
    some { totalComments := comments.length
           userActivity := user_activity comments
           topPositive := p
           topNegative := n }
  | _, _ => none

/-! ### Helper lemmas about the aggregation pass -/

/-- A record lacking `body` leaves the accumulators untouched. -/
theorem processComment_none (score : String → ℚ) (stop_words : List String)
    (st : AnalysisState) (c : RComment) (h : c.body = none) :
    processComment score stop_words st c = st := by
  obtain ⟨a, bo, p, r⟩ := c
  simp only at h
  subst h
  rfl

/-- The step `topicStep` only touches the topic fields. -/
theorem topicStep_preserved (body : String) (s : AnalysisState) (t : String) :
    (topicStep body s t).sentiment_data = s.sentiment_data ∧
    (topicStep body s t).brand_counts = s.brand_counts ∧
    (topicStep body s t).all_words = s.all_words ∧
    (topicStep body s t).positive_words = s.positive_words ∧
    (topicStep body s t).negative_words = s.negative_words ∧
    (topicStep body s t).scored_comments = s.scored_comments := by
  unfold topicStep
  split <;> exact ⟨rfl, rfl, rfl, rfl, rfl, rfl⟩

/-- The topic loop only touches the topic fields. -/
theorem foldl_topicStep_preserved (body : String) (L : List String)
    (s : AnalysisState) :
    (L.foldl (topicStep body) s).sentiment_data = s.sentiment_data ∧
    (L.foldl (topicStep body) s).brand_counts = s.brand_counts ∧
    (L.foldl (topicStep body) s).all_words = s.all_words ∧
    (L.foldl (topicStep body) s).positive_words = s.positive_words ∧
    (L.foldl (topicStep body) s).negative_words = s.negative_words ∧
    (L.foldl (topicStep body) s).scored_comments = s.scored_comments := by
  induction L generalizing s with
  | nil => exact ⟨rfl, rfl, rfl, rfl, rfl, rfl⟩
  | cons t L ih =>
    simp only [List.foldl_cons]
    obtain ⟨h1, h2, h3, h4, h5, h6⟩ := ih (topicStep body s t)
    obtain ⟨g1, g2, g3, g4, g5, g6⟩ := topicStep_preserved body s t
    exact ⟨h1.trans g1, h2.trans g2, h3.trans g3, h4.trans g4, h5.trans g5,
      h6.trans g6⟩

/-- The step `brandStep` only touches `brand_counts`. -/
theorem brandStep_preserved (body : String) (s : AnalysisState) (br : String) :
    (brandStep body s br).sentiment_data = s.sentiment_data ∧
    (brandStep body s br).topic_counts = s.topic_counts ∧
    (brandStep body s br).topic_comments = s.topic_comments ∧
    (brandStep body s br).all_words = s.all_words ∧
    (brandStep body s br).positive_words = s.positive_words ∧
    (brandStep body s br).negative_words = s.negative_words ∧
    (brandStep body s br).scored_comments = s.scored_comments := by
  unfold brandStep
  split <;> exact ⟨rfl, rfl, rfl, rfl, rfl, rfl, rfl⟩

/-- The brand loop only touches `brand_counts`. -/
theorem foldl_brandStep_preserved (body : String) (L : List String)
    (s : AnalysisState) :
    (L.foldl (brandStep body) s).sentiment_data = s.sentiment_data ∧
    (L.foldl (brandStep body) s).topic_counts = s.topic_counts ∧
    (L.foldl (brandStep body) s).topic_comments = s.topic_comments ∧
    (L.foldl (brandStep body) s).all_words = s.all_words ∧
    (L.foldl (brandStep body) s).positive_words = s.positive_words ∧
    (L.foldl (brandStep body) s).negative_words = s.negative_words ∧
    (L.foldl (brandStep body) s).scored_comments = s.scored_comments := by
  induction L generalizing s with
  | nil => exact ⟨rfl, rfl, rfl, rfl, rfl, rfl, rfl⟩
  | cons br L ih =>
    simp only [List.foldl_cons]
    obtain ⟨h1, h2, h3, h4, h5, h6, h7⟩ := ih (brandStep body s br)
    obtain ⟨g1, g2, g3, g4, g5, g6, g7⟩ := brandStep_preserved body s br
    exact ⟨h1.trans g1, h2.trans g2, h3.trans g3, h4.trans g4, h5.trans g5,
      h6.trans g6, h7.trans g7⟩

theorem countMatches_nil (body t : String) : countMatches body t [] = 0 := rfl

theorem countMatches_cons (body t x : String) (L : List String) :
    countMatches body t (x :: L) =
      (if x = t ∧ strContainsSub (pyLower body) x = true then 1 else 0) +
        countMatches body t L := by
  simp only [countMatches, List.filter_cons]
  by_cases h1 : x = t
  · subst h1
    by_cases h2 : strContainsSub (pyLower body) x = true <;> simp [h2] <;> omega
  · by_cases h2 : strContainsSub (pyLower body) x = true <;> simp [h1, h2]

theorem countMatches_of_not_mem (body t : String) (L : List String)
    (h : t ∉ L) : countMatches body t L = 0 := by
  induction L with
  | nil => rfl
  | cons x L ih =>
    rw [countMatches_cons]
    have hx : ¬(x = t ∧ strContainsSub (pyLower body) x = true) := by
      rintro ⟨rfl, -⟩
      exact h (List.mem_cons_self _ _)
    rw [if_neg hx, ih (fun hm => h (List.mem_cons_of_mem _ hm))]

/-- On a duplicate-free keyword list, a body is counted once per matching
keyword and never for the others. -/
theorem countMatches_nodup (body t : String) (L : List String)
    (h : L.Nodup) :
    countMatches body t L =
      if t ∈ L ∧ strContainsSub (pyLower body) t = true then 1 else 0 := by
  induction L with
  | nil => simp [countMatches_nil]
  | cons x L ih =>
    rw [List.nodup_cons] at h
    rw [countMatches_cons, ih h.2]
    by_cases hx : x = t
    · subst hx
      have hnm : x ∉ L := h.1
      by_cases hs : strContainsSub (pyLower body) x = true <;> simp [hs, hnm]
    · by_cases ht : t ∈ L <;>
        by_cases hs : strContainsSub (pyLower body) t = true <;>
        simp [hx, ht, hs, Ne.symm hx]

theorem topicStep_counts (body : String) (s : AnalysisState) (x t : String) :
    (topicStep body s x).topic_counts t =
      s.topic_counts t +
        (if x = t ∧ strContainsSub (pyLower body) x = true then 1 else 0) := by
  unfold topicStep countIncr
  by_cases h2 : strContainsSub (pyLower body) x = true
  · by_cases h1 : x = t
    · subst h1; simp [h2]
    · simp [h2, h1, Ne.symm h1]
  · simp [h2]

theorem topicStep_comments (body : String) (s : AnalysisState) (x t : String) :
    (topicStep body s x).topic_comments t =
      s.topic_comments t ++
        (if x = t ∧ strContainsSub (pyLower body) x = true then [body] else []) := by
  unfold topicStep groupAppend
  by_cases h2 : strContainsSub (pyLower body) x = true
  · by_cases h1 : x = t
    · subst h1; simp [h2]
    · simp [h2, h1, Ne.symm h1]
  · simp [h2]

theorem brandStep_counts (body : String) (s : AnalysisState) (x t : String) :
    (brandStep body s x).brand_counts t =
      s.brand_counts t +
        (if x = t ∧ strContainsSub (pyLower body) x = true then 1 else 0) := by
  unfold brandStep countIncr
  by_cases h2 : strContainsSub (pyLower body) x = true
  · by_cases h1 : x = t
    · subst h1; simp [h2]
    · simp [h2, h1, Ne.symm h1]
  · simp [h2]

/-- Effect of the topic loop on one topic counter. -/
theorem foldl_topicStep_counts (body : String) (L : List String)
    (s : AnalysisState) (t : String) :
    (L.foldl (topicStep body) s).topic_counts t =
      s.topic_counts t + countMatches body t L := by
  induction L generalizing s with
  | nil => simp [countMatches_nil]
  | cons x L ih =>
    simp only [List.foldl_cons]
    rw [ih, topicStep_counts, countMatches_cons]
    omega

/-- Effect of the topic loop on one grouped-comments entry. -/
theorem foldl_topicStep_comments (body : String) (L : List String)
    (s : AnalysisState) (t : String) :
    (L.foldl (topicStep body) s).topic_comments t =
      s.topic_comments t ++ List.replicate (countMatches body t L) body := by
  induction L generalizing s with
  | nil => simp [countMatches_nil]
  | cons x L ih =>
    simp only [List.foldl_cons]
    rw [ih, topicStep_comments, countMatches_cons, List.append_assoc]
    by_cases hx : x = t ∧ strContainsSub (pyLower body) x = true
    · obtain ⟨rfl, hs⟩ := hx
      have hadd : (1 : Nat) + countMatches body x L = countMatches body x L + 1 :=
        Nat.add_comm _ _
      simp [hs, hadd, List.replicate_succ]
    · simp [hx]

/-- Effect of the brand loop on one brand counter. -/
theorem foldl_brandStep_counts (body : String) (L : List String)
    (s : AnalysisState) (t : String) :
    (L.foldl (brandStep body) s).brand_counts t =
      s.brand_counts t + countMatches body t L := by
  induction L generalizing s with
  | nil => simp [countMatches_nil]
  | cons x L ih =>
    simp only [List.foldl_cons]
    rw [ih, brandStep_counts, countMatches_cons]
    omega

/-- Sentiment counters after processing one record with a body: the fixed
threshold trichotomy of the source. -/
theorem processComment_sent (score : String → ℚ) (stop_words : List String)
    (st : AnalysisState) (a : Option String) (b p : String) (r : Option String) :
    (processComment score stop_words st ⟨a, some b, p, r⟩).sentiment_data =
      if score b > SENTIMENT_POS then
        ⟨st.sentiment_data.positive + 1, st.sentiment_data.neutral,
         st.sentiment_data.negative⟩
      else if score b < SENTIMENT_NEG then
        ⟨st.sentiment_data.positive, st.sentiment_data.neutral,
         st.sentiment_data.negative + 1⟩
      else
        ⟨st.sentiment_data.positive, st.sentiment_data.neutral + 1,
         st.sentiment_data.negative⟩ := by
  simp only [processComment]
  rw [(foldl_brandStep_preserved b BRANDS _).1,
    (foldl_topicStep_preserved b topics _).1]
  by_cases h1 : score b > SENTIMENT_POS
  · simp [h1]
  · by_cases h2 : score b < SENTIMENT_NEG <;> simp [h1, h2]

/-- Scored-comments list after processing one record with a body. -/
theorem processComment_scored (score : String → ℚ) (stop_words : List String)
    (st : AnalysisState) (a : Option String) (b p : String) (r : Option String) :
    (processComment score stop_words st ⟨a, some b, p, r⟩).scored_comments =
      st.scored_comments ++ [(score b, b, "https://reddit.com" ++ p)] := by
  simp only [processComment]
  rw [(foldl_brandStep_preserved b BRANDS _).2.2.2.2.2.2,
    (foldl_topicStep_preserved b topics _).2.2.2.2.2]
  by_cases h1 : score b > SENTIMENT_POS
  · simp [h1]
  · by_cases h2 : score b < SENTIMENT_NEG <;> simp [h1, h2]

/-- All-words list after processing one record with a body: the normalized
tokens are appended. -/
theorem processComment_all_words (score : String → ℚ) (stop_words : List String)
    (st : AnalysisState) (a : Option String) (b p : String) (r : Option String) :
    (processComment score stop_words st ⟨a, some b, p, r⟩).all_words =
      st.all_words ++ normTokens stop_words b := by
  simp only [processComment]
  rw [(foldl_brandStep_preserved b BRANDS _).2.2.2.1,
    (foldl_topicStep_preserved b topics _).2.2.1]
  by_cases h1 : score b > SENTIMENT_POS
  · simp [h1]
  · by_cases h2 : score b < SENTIMENT_NEG <;> simp [h1, h2]

/-- Positive-words list after processing one record with a body: the raw
whitespace-split tokens are appended exactly when the bucket is positive. -/
theorem processComment_pos_words (score : String → ℚ) (stop_words : List String)
    (st : AnalysisState) (a : Option String) (b p : String) (r : Option String) :
    (processComment score stop_words st ⟨a, some b, p, r⟩).positive_words =
      st.positive_words ++ (if score b > SENTIMENT_POS then pySplit b else []) := by
  simp only [processComment]
  rw [(foldl_brandStep_preserved b BRANDS _).2.2.2.2.1,
    (foldl_topicStep_preserved b topics _).2.2.2.1]
  by_cases h1 : score b > SENTIMENT_POS
  · simp [h1]
  · by_cases h2 : score b < SENTIMENT_NEG <;> simp [h1, h2]

/-- Negative-words list after processing one record with a body: the raw
whitespace-split tokens are appended exactly when the bucket is negative. -/
theorem processComment_neg_words (score : String → ℚ) (stop_words : List String)
    (st : AnalysisState) (a : Option String) (b p : String) (r : Option String) :
    (processComment score stop_words st ⟨a, some b, p, r⟩).negative_words =
      st.negative_words ++
        (if ¬score b > SENTIMENT_POS ∧ score b < SENTIMENT_NEG then pySplit b else []) := by
  simp only [processComment]
  rw [(foldl_brandStep_preserved b BRANDS _).2.2.2.2.2.1,
    (foldl_topicStep_preserved b topics _).2.2.2.2.1]
  by_cases h1 : score b > SENTIMENT_POS
  · simp [h1]
  · by_cases h2 : score b < SENTIMENT_NEG <;> simp [h1, h2]

/-- Topic counters after processing one record with a body. -/
theorem processComment_topic_counts (score : String → ℚ)
    (stop_words : List String) (st : AnalysisState) (a : Option String)
    (b p : String) (r : Option String) (t : String) :
    (processComment score stop_words st ⟨a, some b, p, r⟩).topic_counts t =
      st.topic_counts t + countMatches b t topics := by
  simp only [processComment]
  rw [(foldl_brandStep_preserved b BRANDS _).2.1]
  rw [foldl_topicStep_counts]
  by_cases h1 : score b > SENTIMENT_POS
  · simp [h1]
  · by_cases h2 : score b < SENTIMENT_NEG <;> simp [h1, h2]

/-- Grouped topic comments after processing one record with a body. -/
theorem processComment_topic_comments (score : String → ℚ)
    (stop_words : List String) (st : AnalysisState) (a : Option String)
    (b p : String) (r : Option String) (t : String) :
    (processComment score stop_words st ⟨a, some b, p, r⟩).topic_comments t =
      st.topic_comments t ++ List.replicate (countMatches b t topics) b := by
  simp only [processComment]
  rw [(foldl_brandStep_preserved b BRANDS _).2.2.1]
  rw [foldl_topicStep_comments]
  by_cases h1 : score b > SENTIMENT_POS
  · simp [h1]
  · by_cases h2 : score b < SENTIMENT_NEG <;> simp [h1, h2]

/-- Brand counters after processing one record with a body. -/
theorem processComment_brand_counts (score : String → ℚ)
    (stop_words : List String) (st : AnalysisState) (a : Option String)
    (b p : String) (r : Option String) (t : String) :
    (processComment score stop_words st ⟨a, some b, p, r⟩).brand_counts t =
      st.brand_counts t + countMatches b t BRANDS := by
  simp only [processComment]
  rw [foldl_brandStep_counts]
  rw [(foldl_topicStep_preserved b topics _).2.1]
  by_cases h1 : score b > SENTIMENT_POS
  · simp [h1]
  · by_cases h2 : score b < SENTIMENT_NEG <;> simp [h1, h2]

/-- The rational threshold constants are exactly the source literals `0.05`
and `-0.05`. -/
theorem SENTIMENT_POS_eq :
    SENTIMENT_POS = (0.05 : ℚ) ∧ SENTIMENT_NEG = (-0.05 : ℚ) := by
  constructor <;> norm_num [SENTIMENT_POS, SENTIMENT_NEG, Rat.mkRat_eq_div]

/-! ### Claim theorems -/

/-- C1: For every analyzed comment body, the sentiment bucket is determined
by the fixed thresholds: a compound score strictly greater than 0.05
increments the positive counter, strictly less than -0.05 increments the
negative counter, and otherwise — including the boundary values 0.05 and
-0.05 exactly — the neutral counter is incremented. -/
theorem sentiment_bucket_thresholds (score : String → ℚ)
    (stop_words : List String) (st : AnalysisState) (a : Option String)
    (b p : String) (r : Option String) :
    (score b > (0.05 : ℚ) →
      (processComment score stop_words st ⟨a, some b, p, r⟩).sentiment_data =
        ⟨st.sentiment_data.positive + 1, st.sentiment_data.neutral,
         st.sentiment_data.negative⟩) ∧
    (score b < (-0.05 : ℚ) →
      (processComment score stop_words st ⟨a, some b, p, r⟩).sentiment_data =
        ⟨st.sentiment_data.positive, st.sentiment_data.neutral,
         st.sentiment_data.negative + 1⟩) ∧
    ((-0.05 : ℚ) ≤ score b → score b ≤ (0.05 : ℚ) →
      (processComment score stop_words st ⟨a, some b, p, r⟩).sentiment_data =
        ⟨st.sentiment_data.positive, st.sentiment_data.neutral + 1,
         st.sentiment_data.negative⟩) := by
  have hp := SENTIMENT_POS_eq.1
  have hn := SENTIMENT_POS_eq.2
  refine ⟨fun h1 => ?_, fun h2 => ?_, fun hl hr => ?_⟩
  · rw [processComment_sent]
    have h1p : score b > SENTIMENT_POS := by rw [hp]; exact h1
    simp [h1p]
  · rw [processComment_sent]
    have h1p : ¬score b > SENTIMENT_POS := by
      rw [hp]; push_neg; linarith
    have h2p : score b < SENTIMENT_NEG := by rw [hn]; exact h2
    simp [h1p, h2p]
  · rw [processComment_sent]
    have h1p : ¬score b > SENTIMENT_POS := by rw [hp]; exact not_lt.mpr hr
    have h2p : ¬score b < SENTIMENT_NEG := by rw [hn]; exact not_lt.mpr hl
    simp [h1p, h2p]

/-- Witness for `sentiment_bucket_thresholds` at the concrete scores 0.06,
-0.06, 0.05 and -0.05; both boundary values land in the neutral bucket. -/
theorem sentiment_bucket_thresholds_witness :
    ((processComment (fun _ => mkRat 6 100) [] initState
        ⟨none, some "x", "", none⟩).sentiment_data = ⟨1, 0, 0⟩) ∧
    ((processComment (fun _ => mkRat (-6) 100) [] initState
        ⟨none, some "x", "", none⟩).sentiment_data = ⟨0, 0, 1⟩) ∧
    ((processComment (fun _ => mkRat 5 100) [] initState
        ⟨none, some "x", "", none⟩).sentiment_data = ⟨0, 1, 0⟩) ∧
    ((processComment (fun _ => mkRat (-5) 100) [] initState
        ⟨none, some "x", "", none⟩).sentiment_data = ⟨0, 1, 0⟩) :=
  ⟨(sentiment_bucket_thresholds _ [] initState none "x" "" none).1
      (by norm_num [Rat.mkRat_eq_div]),
   (sentiment_bucket_thresholds _ [] initState none "x" "" none).2.1
      (by norm_num [Rat.mkRat_eq_div]),
   (sentiment_bucket_thresholds _ [] initState none "x" "" none).2.2
      (by norm_num [Rat.mkRat_eq_div]) (by norm_num [Rat.mkRat_eq_div]),
   (sentiment_bucket_thresholds _ [] initState none "x" "" none).2.2
      (by norm_num [Rat.mkRat_eq_div]) (by norm_num [Rat.mkRat_eq_div])⟩

/-- The counters sum grows by one per record with a `body` key. -/
theorem foldl_sentiment_sum (score : String → ℚ) (stop_words : List String)
    (comments : List RComment) (st : AnalysisState) :
    ((comments.foldl (processComment score stop_words) st).sentiment_data.positive +
     (comments.foldl (processComment score stop_words) st).sentiment_data.neutral +
     (comments.foldl (processComment score stop_words) st).sentiment_data.negative) =
      (st.sentiment_data.positive + st.sentiment_data.neutral +
        st.sentiment_data.negative) +
      (comments.filter (fun c => c.body.isSome)).length := by
  induction comments generalizing st with
  | nil => simp
  | cons c rest ih =>
    obtain ⟨a, bo, p, r⟩ := c
    cases bo with
    | none =>
      simp only [List.foldl_cons]
      rw [processComment_none score stop_words st _ rfl, ih]
      simp [List.filter_cons]
    | some b =>
      simp only [List.foldl_cons]
      rw [ih, processComment_sent]
      split_ifs <;> simp [List.filter_cons] <;> omega

/-- C2 counterexample: a record whose data contains an *empty-string*
`body` is still bucketed (the score 0 lands in neutral), so the counters
sum to 1 while zero records have a non-empty body. -/
theorem sentiment_sum_counterexample :
    ((analyze_comments (fun _ => 0) [] [⟨none, some "", "", none⟩]).sentiment_data.positive +
     (analyze_comments (fun _ => 0) [] [⟨none, some "", "", none⟩]).sentiment_data.neutral +
     (analyze_comments (fun _ => 0) [] [⟨none, some "", "", none⟩]).sentiment_data.negative
       = 1) ∧
    (([⟨none, some "", "", none⟩] : List RComment).filter
        (fun c => c.body.isSome && decide (c.body.getD "" ≠ ""))).length = 0 := by
  constructor <;> decide

/-- C2 amended: after the aggregation pass the counters sum to the number
of records whose data contains a `body` key (present, possibly empty), and
each record with a body contributes to exactly one of the three mutually
exclusive counters. -/
theorem sentiment_sum_invariant (score : String → ℚ)
    (stop_words : List String) (comments : List RComment)
    (st : AnalysisState) (a : Option String) (b p : String)
    (r : Option String) :
    ((analyze_comments score stop_words comments).sentiment_data.positive +
     (analyze_comments score stop_words comments).sentiment_data.neutral +
     (analyze_comments score stop_words comments).sentiment_data.negative =
      (comments.filter (fun c => c.body.isSome)).length) ∧
    ((processComment score stop_words st ⟨a, some b, p, r⟩).sentiment_data =
        ⟨st.sentiment_data.positive + 1, st.sentiment_data.neutral,
         st.sentiment_data.negative⟩ ∨
     (processComment score stop_words st ⟨a, some b, p, r⟩).sentiment_data =
        ⟨st.sentiment_data.positive, st.sentiment_data.neutral + 1,
         st.sentiment_data.negative⟩ ∨
     (processComment score stop_words st ⟨a, some b, p, r⟩).sentiment_data =
        ⟨st.sentiment_data.positive, st.sentiment_data.neutral,
         st.sentiment_data.negative + 1⟩) := by
  constructor
  · have h := foldl_sentiment_sum score stop_words comments initState
    simpa [analyze_comments, analysisState, initState] using h
  · rw [processComment_sent]
    split_ifs
    · exact Or.inl rfl
    · exact Or.inr (Or.inr rfl)
    · exact Or.inr (Or.inl rfl)

/-- C3 counterexample: for a positive comment the positive partition
receives the raw whitespace-split tokens (original case, stop words kept),
not the retained normalized tokens that feed the all-words list. -/
theorem word_partition_counterexample :
    ((analyze_comments (fun _ => 1) ["that", "was"]
        [⟨none, some "That was AWESOME news", "", none⟩]).all_words =
      ["awesome", "news"]) ∧
    ((analyze_comments (fun _ => 1) ["that", "was"]
        [⟨none, some "That was AWESOME news", "", none⟩]).positive_words =
      ["That", "was", "AWESOME", "news"]) := by
  constructor <;> decide

/-- C3 amended: per analyzed comment, the all-words list receives the
retained normalized tokens (split on whitespace, alphabetic-only,
case-folded, stop words excluded), while the positive-words or
negative-words partition receives the *raw* whitespace-split tokens of the
body when the bucket is positive or negative respectively; neutral comments
contribute to all-words only. -/
theorem word_partition_sources (score : String → ℚ)
    (stop_words : List String) (st : AnalysisState) (a : Option String)
    (b p : String) (r : Option String) :
    ((processComment score stop_words st ⟨a, some b, p, r⟩).all_words =
      st.all_words ++ normTokens stop_words b) ∧
    ((processComment score stop_words st ⟨a, some b, p, r⟩).positive_words =
      st.positive_words ++
        (if score b > (0.05 : ℚ) then pySplit b else [])) ∧
    ((processComment score stop_words st ⟨a, some b, p, r⟩).negative_words =
      st.negative_words ++
        (if ¬score b > (0.05 : ℚ) ∧ score b < (-0.05 : ℚ) then pySplit b
         else [])) := by
  refine ⟨processComment_all_words score stop_words st a b p r, ?_, ?_⟩
  · rw [processComment_pos_words, SENTIMENT_POS_eq.1]
  · rw [processComment_neg_words, SENTIMENT_POS_eq.1, SENTIMENT_POS_eq.2]

/-- C5: A body matches a topic or brand keyword exactly when the
case-folded body contains the keyword as a substring (no tokenization):
per comment, each matching topic keyword's counter grows by exactly one and
the body is appended to that topic's comment list, while non-matching
entries are untouched; in particular a body containing the keyword "noise"
and no other topic keyword yields a count of 1 for "noise" and 0 for every
other topic. -/
theorem topic_brand_substring_matching (score : String → ℚ)
    (stop_words : List String) (st : AnalysisState) (a : Option String)
    (b p : String) (r : Option String) (t : String) :
    ((processComment score stop_words st ⟨a, some b, p, r⟩).topic_counts t =
      st.topic_counts t +
        (if t ∈ topics ∧ strContainsSub (pyLower b) t = true then 1 else 0)) ∧
    ((processComment score stop_words st ⟨a, some b, p, r⟩).topic_comments t =
      st.topic_comments t ++
        (if t ∈ topics ∧ strContainsSub (pyLower b) t = true then [b]
         else [])) ∧
    ((processComment score stop_words st ⟨a, some b, p, r⟩).brand_counts t =
      st.brand_counts t +
        (if t ∈ BRANDS ∧ strContainsSub (pyLower b) t = true then 1
         else 0)) ∧
    (strContainsSub (pyLower b) "noise" = true →
      (∀ t2 ∈ topics, t2 ≠ "noise" → strContainsSub (pyLower b) t2 = false) →
      (analysisState score stop_words [⟨a, some b, p, r⟩]).topic_counts
          "noise" = 1 ∧
      ∀ t2 ∈ topics, t2 ≠ "noise" →
        (analysisState score stop_words [⟨a, some b, p, r⟩]).topic_counts
          t2 = 0) := by
  refine ⟨?_, ?_, ?_, ?_⟩
  · rw [processComment_topic_counts,
      countMatches_nodup b t topics (by decide)]
  · rw [processComment_topic_comments,
      countMatches_nodup b t topics (by decide)]
    split_ifs <;> simp
  · rw [processComment_brand_counts,
      countMatches_nodup b t BRANDS (by decide)]
  · intro hno hothers
    constructor
    · simp only [analysisState, List.foldl_cons, List.foldl_nil]
      rw [processComment_topic_counts,
        countMatches_nodup b "noise" topics (by decide),
        if_pos ⟨(by decide : "noise" ∈ topics), hno⟩]
      rfl
    · intro t2 ht2 hne
      simp only [analysisState, List.foldl_cons, List.foldl_nil]
      rw [processComment_topic_counts,
        countMatches_nodup b t2 topics (by decide), if_neg]
      · rfl
      · rintro ⟨-, hc⟩
        rw [hothers t2 ht2 hne] at hc
        cases hc

/-- Witness for `topic_brand_substring_matching`: the body
"the noise is loud" contains the topic keyword "noise" and no other, and
its analysis counts "noise" exactly once. -/
theorem topic_brand_substring_matching_witness :
    (analysisState (fun _ => 0) []
        [⟨none, some "the noise is loud", "", none⟩]).topic_counts
      "noise" = 1 :=
  ((topic_brand_substring_matching (fun _ => 0) [] initState none
      "the noise is loud" "" none "noise").2.2.2 (by decide) (by decide)).1

/-- C7 counterexample: a record lacking `body` still feeds output
structures of the run: with an author it is counted by the final summary's
user-activity counter, and with a subreddit tag it is recounted by the
subreddit index. -/
theorem bodyless_excluded_counterexample :
    (⟨some "alice", none, "", some "diy"⟩ : RComment).body = none ∧
    user_activity [⟨some "alice", none, "", some "diy"⟩] "alice" = 1 ∧
    fetch_phase2 [⟨some "alice", none, "", some "diy"⟩] (fun _ => 0)
      "diy" = 1 := by
  refine ⟨rfl, ?_, ?_⟩ <;> decide

/-- A run over records that all lack `body` leaves the accumulators at
their initial state. -/
theorem foldl_all_bodyless (score : String → ℚ) (stop_words : List String)
    (comments : List RComment) (st : AnalysisState)
    (h : ∀ c ∈ comments, c.body = none) :
    comments.foldl (processComment score stop_words) st = st := by
  induction comments generalizing st with
  | nil => rfl
  | cons c rest ih =>
    simp only [List.foldl_cons]
    rw [processComment_none score stop_words st c
      (h c (List.mem_cons_self c rest))]
    exact ih st (fun x hx => h x (List.mem_cons_of_mem c hx))

/-- C7 amended: a record whose data lacks a `body` field contributes
nothing to the analysis outputs (sentiment counters, word lists,
topic/brand indices, scored rankings) or to the CSV rows — though it still
counts toward the subreddit index and the summary's author-activity
counter. -/
theorem bodyless_excluded (score : String → ℚ) (stop_words : List String)
    (l1 l2 : List RComment) (c : RComment) (h : c.body = none) :
    analyze_comments score stop_words (l1 ++ c :: l2) =
      analyze_comments score stop_words (l1 ++ l2) ∧
    save_comments_to_csv (l1 ++ c :: l2) = save_comments_to_csv (l1 ++ l2) := by
  constructor
  · have hst : analysisState score stop_words (l1 ++ c :: l2) =
        analysisState score stop_words (l1 ++ l2) := by
      simp only [analysisState, List.foldl_append, List.foldl_cons]
      rw [processComment_none score stop_words _ c h]
    simp only [analyze_comments, hst]
  · simp [save_comments_to_csv, List.filterMap_append, List.filterMap_cons, h]

/-- Witness for `bodyless_excluded`: inserting an author-only record after
a normal comment changes neither the analysis result nor the CSV rows. -/
theorem bodyless_excluded_witness :
    analyze_comments (fun _ => 0) []
        [⟨none, some "good", "", none⟩, ⟨some "alice", none, "", none⟩] =
      analyze_comments (fun _ => 0) [] [⟨none, some "good", "", none⟩] ∧
    save_comments_to_csv
        [⟨none, some "good", "", none⟩, ⟨some "alice", none, "", none⟩] =
      save_comments_to_csv [⟨none, some "good", "", none⟩] := by
  have h := bodyless_excluded (fun _ => 0) [] [⟨none, some "good", "", none⟩]
    [] ⟨some "alice", none, "", none⟩ rfl
  simpa using h

/-- C10: when the comment list is non-empty but no record carries a `body`
field, the analysis returns empty most-positive and most-negative lists and
the final summary's read of element 0 fails (the unhandled IndexError,
modelled as `none`): the report never completes. -/
theorem bodyless_run_summary_fails (score : String → ℚ)
    (stop_words : List String) (comments : List RComment)
    (h1 : comments ≠ []) (h2 : ∀ c ∈ comments, c.body = none) :
    (analyze_comments score stop_words comments).most_positive = [] ∧
    (analyze_comments score stop_words comments).most_negative = [] ∧
    generate_final_summary comments
      (analyze_comments score stop_words comments).most_positive
      (analyze_comments score stop_words comments).most_negative = none := by
  have hst : analysisState score stop_words comments = initState :=
    foldl_all_bodyless score stop_words comments initState h2
  have hmp : (analyze_comments score stop_words comments).most_positive = [] := by
    simp [analyze_comments, hst, sortScored, initState]
  have hmn : (analyze_comments score stop_words comments).most_negative = [] := by
    simp [analyze_comments, hst, sortScored, initState]
  refine ⟨hmp, hmn, ?_⟩
  rw [hmp, hmn]
  rfl

/-- Witness for `bodyless_run_summary_fails` on a one-record run whose
single comment has an author but no body. -/
theorem bodyless_run_summary_fails_witness :
    (analyze_comments (fun _ => 0) []
        [⟨some "bob", none, "", none⟩]).most_positive = [] ∧
    (analyze_comments (fun _ => 0) []
        [⟨some "bob", none, "", none⟩]).most_negative = [] ∧
    generate_final_summary [⟨some "bob", none, "", none⟩]
      (analyze_comments (fun _ => 0) []
        [⟨some "bob", none, "", none⟩]).most_positive
      (analyze_comments (fun _ => 0) []
        [⟨some "bob", none, "", none⟩]).most_negative = none :=
  bodyless_run_summary_fails (fun _ => 0) [] [⟨some "bob", none, "", none⟩]
    (by decide) (by decide)

/-- The first fetch loop's counter: one increment per fetched submission's
subreddit, independent of comment fetches. -/
theorem fetch_phase1_counts (fetch : String → Option (List RComment))
    (subs : List Submission) (all0 : List RComment)
    (counts0 : String → Nat) (r : String) :
    (fetch_phase1 fetch subs (all0, counts0)).2 r =
      counts0 r + (subs.filter (fun s => s.subreddit == r)).length := by
  induction subs generalizing all0 counts0 with
  | nil => simp [fetch_phase1]
  | cons s rest ih =>
    simp only [fetch_phase1]
    rw [ih]
    by_cases hs : s.subreddit = r
    · simp [countIncr, hs, List.filter_cons]
      omega
    · simp [countIncr, hs, List.filter_cons, Ne.symm hs]

/-- The first fetch loop's comment list: the tagged comments of every
successfully fetched submission, in order. -/
theorem fetch_phase1_fst (fetch : String → Option (List RComment))
    (subs : List Submission) (all0 : List RComment)
    (counts0 : String → Nat) :
    (fetch_phase1 fetch subs (all0, counts0)).1 = all0 ++ taggedOf fetch subs := by
  induction subs generalizing all0 counts0 with
  | nil => simp [fetch_phase1, taggedOf]
  | cons s rest ih =>
    simp only [fetch_phase1, taggedOf]
    cases hf : fetch s.id with
    | none => simp [hf, ih]
    | some cs => simp [hf, ih, List.append_assoc]

/-- The second fetch loop adds one count per comment tagged with `r`. -/
theorem fetch_phase2_counts (all : List RComment) (counts0 : String → Nat)
    (r : String) :
    fetch_phase2 all counts0 r =
      counts0 r + (all.filter (fun c => c.subreddit == some r)).length := by
  induction all generalizing counts0 with
  | nil => simp [fetch_phase2]
  | cons c rest ih =>
    simp only [fetch_phase2, List.foldl_cons] at *
    rw [ih]
    cases hc : c.subreddit with
    | none => simp [hc, List.filter_cons]
    | some rr =>
      by_cases hr : rr = r
      · simp [hc, hr, countIncr, List.filter_cons]
        omega
      · simp [hc, hr, countIncr, List.filter_cons, Ne.symm hr]

/-- C6: the subreddit index double-counts by design: the final count for a
subreddit is the number of fetched submissions with that subreddit plus the
number of comments attributed (tagged) to it; in particular one submission
with two comments yields a count of 3. -/
theorem subreddit_dual_counting (subs : List Submission)
    (fetch : String → Option (List RComment)) (r : String) :
    ((fetch_ceiling_fan_comments subs fetch).2 r =
      (subs.filter (fun s => s.subreddit == r)).length +
        ((fetch_ceiling_fan_comments subs fetch).1.filter
          (fun c => c.subreddit == some r)).length) ∧
    ((fetch_ceiling_fan_comments [⟨"homeimprovement", "s1"⟩]
        (fun _ => some [⟨none, some "nice fan", "/a", none⟩,
          ⟨none, some "loud fan", "/b", none⟩])).2 "homeimprovement" = 3) := by
  constructor
  · simp only [fetch_ceiling_fan_comments]
    rw [fetch_phase2_counts, fetch_phase1_counts]
    omega
  · decide

/-- C8: when a per-submission comment fetch returns a non-success status,
that submission's comments are omitted from the dataset while the run
continues over the remaining submissions, and the submission's own
subreddit increment already recorded is retained. -/
theorem failed_fetch_skips_comments (s : Submission)
    (rest : List Submission) (fetch : String → Option (List RComment))
    (r : String) (h : fetch s.id = none) :
    (fetch_ceiling_fan_comments (s :: rest) fetch).1 =
      (fetch_ceiling_fan_comments rest fetch).1 ∧
    (fetch_ceiling_fan_comments (s :: rest) fetch).2 r =
      (fetch_ceiling_fan_comments rest fetch).2 r +
        (if r = s.subreddit then 1 else 0) := by
  have hall : ∀ counts0 : String → Nat,
      (fetch_phase1 fetch (s :: rest) ([], counts0)).1 =
        (fetch_phase1 fetch rest ([], counts0)).1 := by
    intro counts0
    rw [fetch_phase1_fst, fetch_phase1_fst]
    simp only [taggedOf, h]
    rfl
  constructor
  · simp only [fetch_ceiling_fan_comments]
    exact hall _
  · simp only [fetch_ceiling_fan_comments]
    rw [fetch_phase2_counts, fetch_phase2_counts, fetch_phase1_counts,
      fetch_phase1_counts, hall]
    by_cases hs : s.subreddit = r
    · subst hs
      simp [List.filter_cons]
      omega
    · have hr : ¬(r = s.subreddit) := fun hh => hs hh.symm
      simp [List.filter_cons, hs, hr]

/-- Witness for `failed_fetch_skips_comments`: of two submissions the
first fetch fails; its comments are absent, the run still covers the
second submission, and the failed submission's subreddit counts once. -/
theorem failed_fetch_skips_comments_witness :
    (fetch_ceiling_fan_comments
        [⟨"homeimprovement", "s1"⟩, ⟨"diy", "s2"⟩]
        (fun i => if i = "s2" then some [⟨none, some "ok", "/c", none⟩]
          else none)).1 =
      (fetch_ceiling_fan_comments [⟨"diy", "s2"⟩]
        (fun i => if i = "s2" then some [⟨none, some "ok", "/c", none⟩]
          else none)).1 ∧
    (fetch_ceiling_fan_comments
        [⟨"homeimprovement", "s1"⟩, ⟨"diy", "s2"⟩]
        (fun i => if i = "s2" then some [⟨none, some "ok", "/c", none⟩]
          else none)).2 "homeimprovement" =
      (fetch_ceiling_fan_comments [⟨"diy", "s2"⟩]
        (fun i => if i = "s2" then some [⟨none, some "ok", "/c", none⟩]
          else none)).2 "homeimprovement" + 1 := by
  have h := failed_fetch_skips_comments ⟨"homeimprovement", "s1"⟩
    [⟨"diy", "s2"⟩]
    (fun i => if i = "s2" then some [⟨none, some "ok", "/c", none⟩]
      else none)
    "homeimprovement" (by decide)
  simpa using h

/-- The ranking comparison is transitive. -/
theorem scoredLE_trans : ∀ a b c : Scored,
    scoredLE a b = true → scoredLE b c = true → scoredLE a c = true := by
  intro a b c hab hbc
  simp only [scoredLE, decide_eq_true_eq] at *
  exact le_trans hbc hab

/-- The ranking comparison is total. -/
theorem scoredLE_total : ∀ a b : Scored,
    (scoredLE a b || scoredLE b a) = true := by
  intro a b
  simp only [scoredLE, Bool.or_eq_true, decide_eq_true_eq]
  exact le_total b.1 a.1

/-- The ranking sort permutes the scored comments. -/
theorem sortScored_perm (l : List Scored) : sortScored l ~ l :=
  List.mergeSort_perm l scoredLE

/-- The ranking sort preserves length. -/
theorem sortScored_length (l : List Scored) :
    (sortScored l).length = l.length := by
  simp [sortScored]

/-- The ranking sort yields scores in descending order. -/
theorem sortScored_pairwise (l : List Scored) :
    (sortScored l).Pairwise (fun x y => y.1 ≤ x.1) := by
  have h := List.sorted_mergeSort scoredLE_trans scoredLE_total l
  refine h.imp ?_
  intro a b hab
  simpa [scoredLE] using hab

/-- The ranking sort is stable: a sublist of tied entries keeps its
relative input order. -/
theorem sortScored_stable (l c' : List Scored) (h1 : c' <+ l)
    (h2 : ∀ x ∈ c', ∀ y ∈ c', x.1 = y.1) : c' <+ sortScored l := by
  apply List.sublist_mergeSort scoredLE_trans scoredLE_total ?_ h1
  apply List.pairwise_of_forall_mem_list
  intro a ha b hb
  simp only [scoredLE, decide_eq_true_eq]
  exact le_of_eq (h2 b hb a ha)

/-- C4: the scored comments are sorted descending by score with a stable
sort (tied entries retain relative input order); the first 10 are returned
as most positive and the last 10 as most negative; with at most 10 scored
comments both slices are the whole sorted list; with more than 20, both
slices have exactly 10 entries and the bottom slice lies entirely after the
top 10, so the two share no entry. -/
theorem ranker_sort_slices (score : String → ℚ) (stop_words : List String)
    (comments : List RComment) (c' : List Scored)
    (h1 : c' <+ (analysisState score stop_words comments).scored_comments)
    (h2 : ∀ x ∈ c', ∀ y ∈ c', x.1 = y.1) :
    (sortScored
        (analysisState score stop_words comments).scored_comments).Pairwise
      (fun x y => y.1 ≤ x.1) ∧
    (sortScored (analysisState score stop_words comments).scored_comments ~
      (analysisState score stop_words comments).scored_comments) ∧
    c' <+ sortScored (analysisState score stop_words comments).scored_comments ∧
    ((analyze_comments score stop_words comments).most_positive =
      (sortScored
        (analysisState score stop_words comments).scored_comments).take 10 ∧
     (analyze_comments score stop_words comments).most_negative =
      (sortScored (analysisState score stop_words comments).scored_comments).drop
        ((sortScored
          (analysisState score stop_words comments).scored_comments).length -
            10)) ∧
    ((analysisState score stop_words comments).scored_comments.length ≤ 10 →
      (analyze_comments score stop_words comments).most_positive =
        sortScored (analysisState score stop_words comments).scored_comments ∧
      (analyze_comments score stop_words comments).most_negative =
        sortScored (analysisState score stop_words comments).scored_comments) ∧
    (20 < (analysisState score stop_words comments).scored_comments.length →
      (analyze_comments score stop_words comments).most_positive.length = 10 ∧
      (analyze_comments score stop_words comments).most_negative.length = 10 ∧
      (analyze_comments score stop_words comments).most_negative =
        ((sortScored
          (analysisState score stop_words comments).scored_comments).drop
            10).drop
          ((analysisState score stop_words comments).scored_comments.length -
            20)) := by
  have hlen :=
    sortScored_length (analysisState score stop_words comments).scored_comments
  refine ⟨sortScored_pairwise _, sortScored_perm _,
    sortScored_stable _ _ h1 h2, ⟨rfl, rfl⟩, ?_, ?_⟩
  · intro hle
    constructor
    · have e : (analyze_comments score stop_words comments).most_positive =
          (sortScored
            (analysisState score stop_words comments).scored_comments).take
            10 := rfl
      rw [e]
      exact List.take_of_length_le (by omega)
    · have e : (analyze_comments score stop_words comments).most_negative =
          (sortScored
            (analysisState score stop_words comments).scored_comments).drop
            ((sortScored
              (analysisState score stop_words comments).scored_comments).length -
              10) := rfl
      rw [e]
      have h0 : (sortScored
          (analysisState score stop_words comments).scored_comments).length -
            10 = 0 := by omega
      rw [h0, List.drop_zero]
  · intro hgt
    refine ⟨?_, ?_, ?_⟩
    · have e : (analyze_comments score stop_words comments).most_positive =
          (sortScored
            (analysisState score stop_words comments).scored_comments).take
            10 := rfl
      rw [e, List.length_take]
      omega
    · have e : (analyze_comments score stop_words comments).most_negative =
          (sortScored
            (analysisState score stop_words comments).scored_comments).drop
            ((sortScored
              (analysisState score stop_words comments).scored_comments).length -
              10) := rfl
      rw [e, List.length_drop]
      omega
    · have e : (analyze_comments score stop_words comments).most_negative =
          (sortScored
            (analysisState score stop_words comments).scored_comments).drop
            ((sortScored
              (analysisState score stop_words comments).scored_comments).length -
              10) := rfl
      rw [e, List.drop_drop]
      congr 1
      omega

/-- Witness for `ranker_sort_slices` on 21 identical (hence all-tied)
comments: the full scored list survives the sort as a sublist (stability)
and both slices have exactly 10 entries. -/
theorem ranker_sort_slices_witness :
    ((analysisState (fun _ => 0) []
        (List.replicate 21 ⟨none, some "x", "", none⟩)).scored_comments <+
      sortScored (analysisState (fun _ => 0) []
        (List.replicate 21 ⟨none, some "x", "", none⟩)).scored_comments) ∧
    (analyze_comments (fun _ => 0) []
      (List.replicate 21 ⟨none, some "x", "", none⟩)).most_positive.length =
        10 ∧
    (analyze_comments (fun _ => 0) []
      (List.replicate 21 ⟨none, some "x", "", none⟩)).most_negative.length =
        10 := by
  have h := ranker_sort_slices (fun _ => 0) []
    (List.replicate 21 ⟨none, some "x", "", none⟩) _
    (List.Sublist.refl _) (by decide)
  exact ⟨h.2.2.1, (h.2.2.2.2.2 (by decide)).1, (h.2.2.2.2.2 (by decide)).2.1⟩

/-- C9: with more than 10 scored comments, position 0 of the most-negative
list — the entry the summary prints as the "Top Negative Comment Example" —
is the element at index `n - 10` of the descending sort (the tenth-lowest
score), and its score is the highest within the bottom-10 slice, not the
lowest of the whole run. -/
theorem top_negative_example_is_tenth_lowest (score : String → ℚ)
    (stop_words : List String) (comments : List RComment)
    (h : 10 < (analysisState score stop_words comments).scored_comments.length) :
    (analyze_comments score stop_words comments).most_negative.head? =
      (sortScored (analysisState score stop_words comments).scored_comments)[
        (analysisState score stop_words comments).scored_comments.length -
          10]? ∧
    ∀ y, (analyze_comments score stop_words comments).most_negative.head? =
        some y →
      ∀ x ∈ (analyze_comments score stop_words comments).most_negative,
        x.1 ≤ y.1 := by
  have hlen :=
    sortScored_length (analysisState score stop_words comments).scored_comments
  have e : (analyze_comments score stop_words comments).most_negative =
      (sortScored
        (analysisState score stop_words comments).scored_comments).drop
        ((sortScored
          (analysisState score stop_words comments).scored_comments).length -
          10) := rfl
  constructor
  · rw [e, List.head?_drop, hlen]
  · intro y hy x hx
    have hpw := sortScored_pairwise
      (analysisState score stop_words comments).scored_comments
    have hpw2 : ((sortScored
        (analysisState score stop_words comments).scored_comments).drop
        ((sortScored
          (analysisState score stop_words comments).scored_comments).length -
          10)).Pairwise (fun a b => b.1 ≤ a.1) :=
      List.Pairwise.sublist (List.drop_sublist _ _) hpw
    rw [e] at hy hx
    obtain ⟨ys, hys⟩ := List.head?_eq_some_iff.mp hy
    rw [hys] at hx hpw2
    rcases List.mem_cons.mp hx with rfl | hxs
    · exact le_refl _
    · exact (List.pairwise_cons.mp hpw2).1 x hxs

/-- Witness for `top_negative_example_is_tenth_lowest` on 11 comments with
distinct scores 0..10. -/
theorem top_negative_example_witness :
    10 < (analysisState (fun b => (b.data.length : ℚ)) []
        (["", "a", "aa", "aaa", "aaaa", "aaaaa", "aaaaaa", "aaaaaaa",
          "aaaaaaaa", "aaaaaaaaa", "aaaaaaaaaa"].map
          (fun b => (⟨none, some b, "", none⟩ : RComment)))).scored_comments.length ∧
    (analyze_comments (fun b => (b.data.length : ℚ)) []
        (["", "a", "aa", "aaa", "aaaa", "aaaaa", "aaaaaa", "aaaaaaa",
          "aaaaaaaa", "aaaaaaaaa", "aaaaaaaaaa"].map
          (fun b => (⟨none, some b, "", none⟩ : RComment)))).most_negative.head? =
      (sortScored (analysisState (fun b => (b.data.length : ℚ)) []
        (["", "a", "aa", "aaa", "aaaa", "aaaaa", "aaaaaa", "aaaaaaa",
          "aaaaaaaa", "aaaaaaaaa", "aaaaaaaaaa"].map
          (fun b => (⟨none, some b, "", none⟩ : RComment)))).scored_comments)[
        (analysisState (fun b => (b.data.length : ℚ)) []
          (["", "a", "aa", "aaa", "aaaa", "aaaaa", "aaaaaa", "aaaaaaa",
            "aaaaaaaa", "aaaaaaaaa", "aaaaaaaaaa"].map
            (fun b => (⟨none, some b, "", none⟩ : RComment)))).scored_comments.length -
          10]? :=
  ⟨by decide,
   (top_negative_example_is_tenth_lowest (fun b => (b.data.length : ℚ)) []
      (["", "a", "aa", "aaa", "aaaa", "aaaaa", "aaaaaa", "aaaaaaa",
        "aaaaaaaa", "aaaaaaaaa", "aaaaaaaaaa"].map
        (fun b => (⟨none, some b, "", none⟩ : RComment))) (by decide)).1⟩

end SocialListening
